import Mathlib

/-!
Verification of the retro-image-converter core (`src/image_processor.py`).

The Python code operates on numpy float64 arrays; here channels are modelled
as exact rationals (`ℚ`).  All arithmetic actually performed by the dithering
code is addition, subtraction, and multiplication by the dyadic constants
k/16 on dyadic values of small height, where float64 is exact, so the
rational model agrees with the program on the concrete inputs examined below;
the one place where float64 rounding can be observed, the aspect-ratio
division in `resize_image`, is flagged at its definition and the theorems
about it are restricted to inputs on which the float computation is exact.

A pixel buffer is a pair of dimensions together with a total function from
(row, column) to a pixel; the raster loops
`for y in range(height): for x in range(width)` become folds over
`List.range`.

One behavior of the source deserves emphasis: in `floyd_steinberg_dither`,
`old_pixel = img_array[y, x]` is basic numpy indexing of a (H, W, 3) float
array and therefore a *view*, not a copy.  The assignment
`img_array[y, x] = new_pixel` on line 148 writes through that same memory, so
when line 150 computes `error = old_pixel - new_pixel` the view already holds
`new_pixel` and the error is identically (0, 0, 0): the program never
diffuses any quantization error, and the pass degenerates to per-pixel
nearest-color quantization.  The embedding reproduces this aliasing
faithfully (`fsStep` below diffuses the zero error), and the theorems state
what the program, not the intended algorithm, does.
-/

/-- A pixel or color: three channel values (R, G, B), as in the numpy
`float64` arrays of `image_processor.py`.  Addition, subtraction, and scalar
multiplication are componentwise via the product instances. -/
abbrev Vec3 := ℚ × ℚ × ℚ

/-- Squared Euclidean distance over the three channels:
`np.sum((pixel - np.array(color)) ** 2)` in `_find_closest_color`. -/
def dist2 (p c : Vec3) : ℚ :=
  (p.1 - c.1) ^ 2 + (p.2.1 - c.2.1) ^ 2 + (p.2.2 - c.2.2) ^ 2

/-- The scan loop of `_find_closest_color`: `best` is the current `closest_color`
and the `Option ℚ` is `min_distance`, with `none` standing for the initial
`float('inf')`. -/
def closestLoop (pixel : Vec3) : List Vec3 → Vec3 → Option ℚ → Vec3
  | [], best, _ => best
  | c :: rest, best, bestD =>
    match bestD with
    | none => closestLoop pixel rest c (some (dist2 pixel c))
    | some m =>
      if dist2 pixel c < m then closestLoop pixel rest c (some (dist2 pixel c))
      else closestLoop pixel rest best (some m)

/-- Model of `_find_closest_color(pixel, palette)`: linear scan keeping the entry of
strictly smallest squared distance; `closest_color` is initialised to
`palette[0]` (the Python raises `IndexError` on an empty palette; the model
returns a default there, and every theorem below assumes a non-empty palette). -/
def find_closest_color (pixel : Vec3) (palette : List Vec3) : Vec3 :=
  closestLoop pixel palette (palette.headD (0, 0, 0)) none

/-- Game Boy Camera 4-shade palette `GAMEBOY_PALETTE`. -/
def GAMEBOY_PALETTE : List Vec3 :=
  [(15, 56, 15), (48, 98, 48), (139, 172, 15), (155, 188, 15)]

/-- Dot matrix printer palette `DOT_MATRIX_PALETTE`. -/
def DOT_MATRIX_PALETTE : List Vec3 := [(0, 0, 0), (255, 255, 255)]

/-- IBM CGA 16-color palette `CGA_PALETTE`. -/
def CGA_PALETTE : List Vec3 :=
  [(0, 0, 0), (0, 0, 170), (0, 170, 0), (0, 170, 170),
   (170, 0, 0), (170, 0, 170), (170, 85, 0), (170, 170, 170),
   (85, 85, 85), (85, 85, 255), (85, 255, 85), (85, 255, 255),
   (255, 85, 85), (255, 85, 255), (255, 255, 85), (255, 255, 255)]

/-- Apple II 16-color palette `APPLE_II_PALETTE` (the duplicate gray entry is
in the source). -/
def APPLE_II_PALETTE : List Vec3 :=
  [(0, 0, 0), (114, 38, 64), (64, 51, 127), (228, 52, 254),
   (14, 89, 64), (128, 128, 128), (27, 154, 254), (191, 179, 255),
   (64, 76, 0), (228, 101, 1), (128, 128, 128), (241, 166, 191),
   (27, 203, 1), (191, 204, 128), (141, 217, 191), (255, 255, 255)]

/-- Commodore 64 palette `C64_PALETTE`. -/
def C64_PALETTE : List Vec3 :=
  [(0, 0, 0), (255, 255, 255), (136, 0, 0), (170, 255, 238),
   (204, 68, 204), (0, 204, 85), (0, 0, 170), (238, 238, 119),
   (221, 136, 85), (102, 68, 0), (255, 119, 119), (51, 51, 51),
   (119, 119, 119), (170, 255, 102), (0, 136, 255), (187, 187, 187)]

/-- ZX Spectrum palette `ZX_SPECTRUM_PALETTE`. -/
def ZX_SPECTRUM_PALETTE : List Vec3 :=
  [(0, 0, 0), (0, 0, 192), (192, 0, 0), (192, 0, 192),
   (0, 192, 0), (0, 192, 192), (192, 192, 0), (192, 192, 192),
   (0, 0, 0), (0, 0, 255), (255, 0, 0), (255, 0, 255),
   (0, 255, 0), (0, 255, 255), (255, 255, 0), (255, 255, 255)]

/-- The integer entries of the 4x4 Bayer matrix from `__init__`. -/
def bayerBase : ℕ → ℕ → ℕ
  | 0, 0 => 0 | 0, 1 => 8 | 0, 2 => 2 | 0, 3 => 10
  | 1, 0 => 12 | 1, 1 => 4 | 1, 2 => 14 | 1, 3 => 6
  | 2, 0 => 3 | 2, 1 => 11 | 2, 2 => 1 | 2, 3 => 9
  | 3, 0 => 15 | 3, 1 => 7 | 3, 2 => 13 | 3, 3 => 5
  | _, _ => 0

/-- Model of `self.bayer_matrix_4x4`: the integer matrix divided by 16. -/
def bayer_matrix_4x4 (i j : ℕ) : ℚ := (bayerBase i j : ℚ) / 16

/-- A pixel buffer: dimensions of the numpy array (shape `height × width × 3`)
together with a total row-major accessor `data y x`. -/
structure Buffer where
  height : ℕ
  width : ℕ
  data : ℕ → ℕ → Vec3

/-- Point update of a 2D accumulator grid: `img_array[y, x] = v`. -/
def upd2 (g : ℕ → ℕ → Vec3) (y x : ℕ) (v : Vec3) : ℕ → ℕ → Vec3 :=
  fun y' x' => if y' = y ∧ x' = x then v else g y' x'

/-- Accumulating update `img_array[y, x] += v`. -/
def addAt (g : ℕ → ℕ → Vec3) (y x : ℕ) (v : Vec3) : ℕ → ℕ → Vec3 :=
  upd2 g y x (g y x + v)

/-- Model of `np.clip(q, 0, 255)` on one channel. -/
def clamp255 (q : ℚ) : ℚ := min 255 (max 0 q)

/-- Model of `np.clip` applied to the three channels of a pixel. -/
def clampv (v : Vec3) : Vec3 := (clamp255 v.1, clamp255 v.2.1, clamp255 v.2.2)

/-- One channel of `np.clip(img_array, 0, 255).astype(np.uint8)`: clamp to
[0, 255] and truncate to an integer (truncation equals floor on the clamped
nonnegative value). -/
def clip8 (q : ℚ) : ℚ := (⌊clamp255 q⌋ : ℚ)

/-- The final clip-and-cast applied to a whole pixel. -/
def clip8v (v : Vec3) : Vec3 := (clip8 v.1, clip8 v.2.1, clip8 v.2.2)

/-- Model of `if x + 1 < width: img_array[y, x + 1] += error * 7/16`. -/
def diffuseRight (wid : ℕ) (err : Vec3) (y x : ℕ) (g : ℕ → ℕ → Vec3) :
    ℕ → ℕ → Vec3 :=
  if x + 1 < wid then addAt g y (x + 1) (((7 : ℚ)/16) • err) else g

/-- Model of `if x - 1 >= 0: img_array[y + 1, x - 1] += error * 3/16` (inside the
`y + 1 < height` guard). -/
def diffuseBelowLeft (err : Vec3) (y x : ℕ) (g : ℕ → ℕ → Vec3) :
    ℕ → ℕ → Vec3 :=
  if 1 ≤ x then addAt g (y + 1) (x - 1) (((3 : ℚ)/16) • err) else g

/-- Model of `if x + 1 < width: img_array[y + 1, x + 1] += error * 1/16` (inside the
`y + 1 < height` guard). -/
def diffuseBelowRight (wid : ℕ) (err : Vec3) (y x : ℕ) (g : ℕ → ℕ → Vec3) :
    ℕ → ℕ → Vec3 :=
  if x + 1 < wid then addAt g (y + 1) (x + 1) (((1 : ℚ)/16) • err) else g

/-- The `if y + 1 < height` block of `floyd_steinberg_dither`: diffuse 3/16 to
the lower-left neighbor (when `x - 1 >= 0`), 5/16 straight down, and 1/16 to
the lower-right neighbor (when `x + 1 < width`), in source order. -/
def diffuseBelow (hgt wid : ℕ) (err : Vec3) (y x : ℕ) (g : ℕ → ℕ → Vec3) :
    ℕ → ℕ → Vec3 :=
  if y + 1 < hgt then
    diffuseBelowRight wid err y x
      (addAt (diffuseBelowLeft err y x g) (y + 1) x (((5 : ℚ)/16) • err))
  else g

/-- The body of the Floyd-Steinberg double loop for one pixel `(x, y)`,
lines 146-160 of the source: quantize the current accumulator and write the
palette color in place (`img_array[y, x] = new_pixel`), then run the guarded
`+=` statements on the neighbors.  Crucially, `old_pixel = img_array[y, x]`
is a numpy *view* that the write on line 148 overwrites, so the subsequent
`error = old_pixel - new_pixel` evaluates to `new_pixel - new_pixel`,
i.e. (0, 0, 0): the neighbor updates execute but each adds a fraction of the
zero error.  The model computes the error exactly as the program observes it,
as the quantized color minus itself. -/
def fsStep (pal : List Vec3) (hgt wid : ℕ) (g : ℕ → ℕ → Vec3) (y x : ℕ) :
    ℕ → ℕ → Vec3 :=
  diffuseBelow hgt wid
      (find_closest_color (g y x) pal - find_closest_color (g y x) pal) y x
    (diffuseRight wid
        (find_closest_color (g y x) pal - find_closest_color (g y x) pal) y x
      (upd2 g y x (find_closest_color (g y x) pal)))

/-- Inner loop `for x in range(n)` of a dithering pass, threading the
accumulator grid. -/
def rowFold (step : (ℕ → ℕ → Vec3) → ℕ → ℕ → ℕ → ℕ → Vec3)
    (g : ℕ → ℕ → Vec3) (y n : ℕ) : ℕ → ℕ → Vec3 :=
  (List.range n).foldl (fun g x => step g y x) g

/-- Outer loop `for y in range(k)` of a dithering pass, each row scanning
`cols` columns. -/
def passFold (step : (ℕ → ℕ → Vec3) → ℕ → ℕ → ℕ → ℕ → Vec3)
    (cols : ℕ) (g : ℕ → ℕ → Vec3) (k : ℕ) : ℕ → ℕ → Vec3 :=
  (List.range k).foldl (fun g y => rowFold step g y cols) g

/-- The full raster scan of `floyd_steinberg_dither` before the final clip. -/
def fsPass (pal : List Vec3) (hgt wid : ℕ) (g : ℕ → ℕ → Vec3) : ℕ → ℕ → Vec3 :=
  passFold (fsStep pal hgt wid) wid g hgt

/-- Model of `floyd_steinberg_dither(image, palette)`: the raster-order pass
(whose per-pixel step, because of the view aliasing described at `fsStep`,
quantizes in place and diffuses a zero error) followed by
`np.clip(..., 0, 255).astype(np.uint8)`. -/
def floyd_steinberg_dither (img : Buffer) (pal : List Vec3) : Buffer :=
  ⟨img.height, img.width,
   fun y x => clip8v (fsPass pal img.height img.width img.data y x)⟩

/-- The additive threshold noise `threshold - 127.5` of `bayer_dither`, where
`threshold = self.bayer_matrix_4x4[y % 4, x % 4] * 255`. -/
def bayerNoise (y x : ℕ) : ℚ := bayer_matrix_4x4 (y % 4) (x % 4) * 255 - 255/2

/-- The body of the `bayer_dither` double loop for one pixel: add the
recentered threshold, clip, quantize, and write in place. -/
def bayerStep (pal : List Vec3) (g : ℕ → ℕ → Vec3) (y x : ℕ) : ℕ → ℕ → Vec3 :=
  upd2 g y x
    (find_closest_color
      (clampv (g y x + (bayerNoise y x, bayerNoise y x, bayerNoise y x))) pal)

/-- The full raster scan of `bayer_dither` before the final clip. -/
def bayerPass (pal : List Vec3) (hgt wid : ℕ) (g : ℕ → ℕ → Vec3) : ℕ → ℕ → Vec3 :=
  passFold (fun g y x => bayerStep pal g y x) wid g hgt

/-- Model of `bayer_dither(image, palette)`: per-pixel ordered dithering followed by
the final clip-and-cast. -/
def bayer_dither (img : Buffer) (pal : List Vec3) : Buffer :=
  ⟨img.height, img.width,
   fun y x => clip8v (bayerPass pal img.height img.width img.data y x)⟩

/-- Model of `ordered_dither(image, palette, matrix_size=4)`: the source delegates to
`bayer_dither`, ignoring `matrix_size`. -/
def ordered_dither (img : Buffer) (pal : List Vec3) (matrix_size : ℕ) : Buffer :=
  bayer_dither img pal

/-- The target-dimension computation of `resize_image` (lines 119-126); the
resampling itself is an external collaborator.  Python's `int()` truncation of
the nonnegative product is modelled by the floor, and the float64 expression
`target_width * (origHeight / origWidth)` is modelled by the exact rational.
The rational leaf is faithful only where the two float64 operations are
exact: when `origWidth = 2^k` (`k ≤ 1022`, so the quotient keeps the
mantissa of `origHeight` with no rounding or underflow) and
`target_width * origHeight < 2^53` (so the product's mantissa fits and the
operands convert to float exactly); the theorems about the
`maintain_aspect = true` branch carry exactly these hypotheses.  Outside that
family float64 rounding can shift the result: e.g. for origWidth = 49,
origHeight = 1, target_width = 49 the program computes
`int(49 * fl(1/49)) = int(1 - 2^-53) = 0` while the exact rational gives
`⌊49/49⌋ = 1`.  A zero `origWidth` raises `ZeroDivisionError` in Python.
The `maintain_aspect = false` and explicit-height branches involve no
floating point and are unconditionally faithful. -/
def resize_target_dims (origWidth origHeight target_width : ℕ)
    (target_height : Option ℤ) (maintain_aspect : Bool) : ℤ × ℤ :=
  match target_height with
  | some th => ((target_width : ℤ), th)
  | none =>
    if maintain_aspect then
      ((target_width : ℤ), ⌊(target_width : ℚ) * ((origHeight : ℚ) / (origWidth : ℚ))⌋)
    else ((target_width : ℤ), (target_width : ℤ))

/-- Python's `str.lower()`, modelled on the underlying character list
(the registered palette names are ASCII, where per-character lowercasing
agrees with Python). -/
def pyLower (s : String) : String := ⟨s.data.map Char.toLower⟩

/-- Model of `palette_map.get(palette.lower(), self.CGA_PALETTE)` inside
`convert_to_retro_color`. -/
def lookup_palette (name : String) : List Vec3 :=
  if pyLower name = "cga" then CGA_PALETTE
  else if pyLower name = "apple2" then APPLE_II_PALETTE
  else if pyLower name = "c64" then C64_PALETTE
  else if pyLower name = "spectrum" then ZX_SPECTRUM_PALETTE
  else CGA_PALETTE

/-- Model of `convert_to_gameboy_camera(image, dither_method, contrast_factor)`.
Resizing and contrast enhancement are external collaborators (PIL), passed in
as `rf` and `cf`; the call shapes (`resize_image(image, 128, 112,
maintain_aspect=False)`, then `enhance_contrast`) and the dispatch on
`dither_method` follow the source. -/
def convert_to_gameboy_camera (rf : Buffer → ℕ → Option ℕ → Bool → Buffer)
    (cf : Buffer → ℚ → Buffer) (img : Buffer)
    (dither_method : String) (contrast_factor : ℚ) : Buffer :=
  let resized := rf img 128 (some 112) false
  let enhanced := cf resized contrast_factor
  if dither_method = "floyd_steinberg" then
    floyd_steinberg_dither enhanced GAMEBOY_PALETTE
  else if dither_method = "bayer" then
    bayer_dither enhanced GAMEBOY_PALETTE
  else
    ordered_dither enhanced GAMEBOY_PALETTE 4

/-- Model of `convert_to_dot_matrix(image, width, dither_method, contrast_factor)`. -/
def convert_to_dot_matrix (rf : Buffer → ℕ → Option ℕ → Bool → Buffer)
    (cf : Buffer → ℚ → Buffer) (img : Buffer) (width : ℕ)
    (dither_method : String) (contrast_factor : ℚ) : Buffer :=
  let resized := rf img width none true
  let enhanced := cf resized contrast_factor
  if dither_method = "floyd_steinberg" then
    floyd_steinberg_dither enhanced DOT_MATRIX_PALETTE
  else if dither_method = "bayer" then
    bayer_dither enhanced DOT_MATRIX_PALETTE
  else
    ordered_dither enhanced DOT_MATRIX_PALETTE 4

/-- Model of `convert_to_retro_color(image, width, palette, dither_method,
contrast_factor)`. -/
def convert_to_retro_color (rf : Buffer → ℕ → Option ℕ → Bool → Buffer)
    (cf : Buffer → ℚ → Buffer) (img : Buffer) (width : ℕ)
    (palette : String) (dither_method : String) (contrast_factor : ℚ) : Buffer :=
  let color_palette := lookup_palette palette
  let resized := rf img width none true
  let enhanced := cf resized contrast_factor
  if dither_method = "floyd_steinberg" then
    floyd_steinberg_dither enhanced color_palette
  else if dither_method = "bayer" then
    bayer_dither enhanced color_palette
  else
    ordered_dither enhanced color_palette 4

/-- A 2x2 buffer whose four pixels are all mid-gray (128,128,128)
(end-to-end scenario 1 of the spec). -/
def midGrayBuf : Buffer := ⟨2, 2, fun _ _ => (128, 128, 128)⟩

/-- The 2-color black/white palette of end-to-end scenario 1. -/
def bwPal : List Vec3 := [(0, 0, 0), (255, 255, 255)]

/-- A 4x4 uniform white buffer (end-to-end scenario 2 of the spec). -/
def whiteBuf : Buffer := ⟨4, 4, fun _ _ => (255, 255, 255)⟩

/-- A color whose three channels are integers in [0, 255] — the hypothesis on
palette entries in the palette-closure claim. -/
def IntegralColor (c : Vec3) : Prop :=
  ∃ a b d : ℤ, 0 ≤ a ∧ a ≤ 255 ∧ 0 ≤ b ∧ b ≤ 255 ∧ 0 ≤ d ∧ d ≤ 255 ∧
    c = ((a : ℚ), (b : ℚ), (d : ℚ))

/-!
Lemmas about the color matcher.  `scanBest` is a reformulation of the scan
loop once `min_distance` has become finite; it keeps the running best and
replaces it only on strict improvement, exactly like the source loop.
-/

/-- The `_find_closest_color` scan after the first iteration: keep `best`,
replacing it only when a strictly smaller distance appears. -/
def scanBest (pixel : Vec3) : Vec3 → List Vec3 → Vec3
  | best, [] => best
  | best, c :: rest =>
    if dist2 pixel c < dist2 pixel best then scanBest pixel c rest
    else scanBest pixel best rest

theorem closestLoop_eq_scanBest (pixel : Vec3) :
    ∀ (colors : List Vec3) (best : Vec3),
      closestLoop pixel colors best (some (dist2 pixel best)) =
        scanBest pixel best colors := by
  intro colors
  induction colors with
  | nil => intro best; rfl
  | cons c rest ih =>
    intro best
    simp only [closestLoop, scanBest]
    by_cases h : dist2 pixel c < dist2 pixel best
    · rw [if_pos h, if_pos h, ih]
    · rw [if_neg h, if_neg h, ih]

theorem find_closest_color_cons (pixel c : Vec3) (rest : List Vec3) :
    find_closest_color pixel (c :: rest) = scanBest pixel c rest := by
  simp only [find_closest_color, List.headD, closestLoop]
  exact closestLoop_eq_scanBest pixel rest c

theorem scanBest_mem (pixel : Vec3) :
    ∀ (colors : List Vec3) (best : Vec3),
      scanBest pixel best colors ∈ best :: colors := by
  intro colors
  induction colors with
  | nil => intro best; simp [scanBest]
  | cons c rest ih =>
    intro best
    simp only [scanBest]
    by_cases h : dist2 pixel c < dist2 pixel best
    · rw [if_pos h]
      exact List.mem_cons_of_mem best (ih c)
    · rw [if_neg h]
      have := ih best
      simp only [List.mem_cons] at this ⊢
      tauto

theorem find_closest_color_mem (pixel : Vec3) (pal : List Vec3) (hne : pal ≠ []) :
    find_closest_color pixel pal ∈ pal := by
  cases pal with
  | nil => exact absurd rfl hne
  | cons c rest =>
    rw [find_closest_color_cons]
    exact scanBest_mem pixel rest c

/-- Structure of the scan result: either the starting best survives and beats
every scanned entry, or the result sits in the scanned list, is strictly
better than the starting best and everything before it, and no later entry is
strictly better. -/
theorem scanBest_spec (pixel : Vec3) :
    ∀ (colors : List Vec3) (best : Vec3),
      (scanBest pixel best colors = best ∧
        ∀ c ∈ colors, dist2 pixel best ≤ dist2 pixel c)
      ∨ (∃ l1 l2, colors = l1 ++ scanBest pixel best colors :: l2
          ∧ dist2 pixel (scanBest pixel best colors) < dist2 pixel best
          ∧ (∀ c ∈ l1, dist2 pixel (scanBest pixel best colors) < dist2 pixel c)
          ∧ (∀ c ∈ l2, dist2 pixel (scanBest pixel best colors) ≤ dist2 pixel c)) := by
  intro colors
  induction colors with
  | nil =>
    intro best
    exact Or.inl ⟨rfl, by simp⟩
  | cons c rest ih =>
    intro best
    simp only [scanBest]
    by_cases h : dist2 pixel c < dist2 pixel best
    · rw [if_pos h]
      rcases ih c with ⟨he, hall⟩ | ⟨l1, l2, hdec, hlt, h1, h2⟩
      · refine Or.inr ⟨[], rest, ?_, ?_, ?_, ?_⟩
        · rw [he]; simp
        · rw [he]; exact h
        · simp
        · rw [he]; exact hall
      · refine Or.inr ⟨c :: l1, l2, ?_, hlt.trans h, ?_, h2⟩
        · conv_lhs => rw [hdec]
          simp
        · intro d hd
          rcases List.mem_cons.mp hd with rfl | hd'
          · exact hlt
          · exact h1 d hd'
    · rw [if_neg h]
      rcases ih best with ⟨he, hall⟩ | ⟨l1, l2, hdec, hlt, h1, h2⟩
      · refine Or.inl ⟨he, ?_⟩
        intro d hd
        rcases List.mem_cons.mp hd with rfl | hd'
        · exact le_of_not_lt h
        · exact hall d hd'
      · refine Or.inr ⟨c :: l1, l2, ?_, hlt, ?_, h2⟩
        · conv_lhs => rw [hdec]
          simp
        · intro d hd
          rcases List.mem_cons.mp hd with rfl | hd'
          · exact lt_of_lt_of_le hlt (le_of_not_lt h)
          · exact h1 d hd'

/-- C2: `_find_closest_color` returns the first palette entry achieving the
minimum squared Euclidean distance: the palette splits as
`earlier ++ result :: later` where every earlier entry is at strictly greater
distance and no later entry is at strictly smaller distance, so a later entry
at exactly equal distance is never chosen. -/
theorem retro_c2_first_min (pixel : Vec3) (pal : List Vec3) (hne : pal ≠ []) :
    ∃ l1 l2, pal = l1 ++ find_closest_color pixel pal :: l2
      ∧ (∀ c ∈ l1, dist2 pixel (find_closest_color pixel pal) < dist2 pixel c)
      ∧ (∀ c ∈ l2, dist2 pixel (find_closest_color pixel pal) ≤ dist2 pixel c) := by
  cases pal with
  | nil => exact absurd rfl hne
  | cons c rest =>
    rw [find_closest_color_cons]
    rcases scanBest_spec pixel rest c with ⟨he, hall⟩ | ⟨l1, l2, hdec, hlt, h1, h2⟩
    · refine ⟨[], rest, ?_, by simp, ?_⟩
      · rw [he]; simp
      · rw [he]; exact hall
    · refine ⟨c :: l1, l2, ?_, ?_, h2⟩
      · conv_lhs => rw [hdec]
        simp
      · intro d hd
        rcases List.mem_cons.mp hd with rfl | hd'
        · exact hlt
        · exact h1 d hd'

/-- C2 witness: the tie-break example from the spec.  For pixel
`(100,100,100)` and palette `[(90,100,100), (110,100,100)]` both entries are
at squared distance 100 and the first one is returned. -/
theorem retro_c2_first_min_witness :
    (([(90, 100, 100), (110, 100, 100)] : List Vec3) ≠ [])
    ∧ find_closest_color (100, 100, 100) [(90, 100, 100), (110, 100, 100)]
        = (90, 100, 100)
    ∧ ∃ l1 l2, ([(90, 100, 100), (110, 100, 100)] : List Vec3)
        = l1 ++ find_closest_color (100, 100, 100) [(90, 100, 100), (110, 100, 100)] :: l2
      ∧ (∀ c ∈ l1,
          dist2 (100, 100, 100)
            (find_closest_color (100, 100, 100) [(90, 100, 100), (110, 100, 100)])
            < dist2 (100, 100, 100) c)
      ∧ (∀ c ∈ l2,
          dist2 (100, 100, 100)
            (find_closest_color (100, 100, 100) [(90, 100, 100), (110, 100, 100)])
            ≤ dist2 (100, 100, 100) c) :=
  ⟨by decide, by with_unfolding_all decide,
   retro_c2_first_min (100, 100, 100) [(90, 100, 100), (110, 100, 100)] (by decide)⟩

/-!
Pointwise behavior of the single-cell updates and of the Floyd-Steinberg
step.  Because the diffused error is the aliased `new_pixel - new_pixel`,
every neighbor update adds a scalar multiple of the zero vector; the lemmas
below show that a step therefore equals a plain point update: it writes the
quantized color at its own cell and leaves every other cell unchanged.
-/

theorem upd2_self {g : ℕ → ℕ → Vec3} {y x : ℕ} {v : Vec3} :
    upd2 g y x v y x = v := if_pos ⟨rfl, rfl⟩

theorem upd2_ne {g : ℕ → ℕ → Vec3} {y x : ℕ} {v : Vec3} {y' x' : ℕ}
    (h : ¬(y' = y ∧ x' = x)) : upd2 g y x v y' x' = g y' x' := if_neg h

theorem addAt_smul_zero {g : ℕ → ℕ → Vec3} {y x : ℕ} {c : ℚ} {y' x' : ℕ} :
    addAt g y x (c • (0 : Vec3)) y' x' = g y' x' := by
  simp only [addAt, upd2]
  split_ifs with h
  · obtain ⟨rfl, rfl⟩ := h
    rw [smul_zero, add_zero]
  · rfl

theorem diffuseRight_zero {wid : ℕ} {y x : ℕ} {g : ℕ → ℕ → Vec3} {y' x' : ℕ} :
    diffuseRight wid (0 : Vec3) y x g y' x' = g y' x' := by
  unfold diffuseRight
  split_ifs with hc
  · exact addAt_smul_zero
  · rfl

theorem diffuseBelowLeft_zero {y x : ℕ} {g : ℕ → ℕ → Vec3} {y' x' : ℕ} :
    diffuseBelowLeft (0 : Vec3) y x g y' x' = g y' x' := by
  unfold diffuseBelowLeft
  split_ifs with hc
  · exact addAt_smul_zero
  · rfl

theorem diffuseBelowRight_zero {wid : ℕ} {y x : ℕ} {g : ℕ → ℕ → Vec3}
    {y' x' : ℕ} :
    diffuseBelowRight wid (0 : Vec3) y x g y' x' = g y' x' := by
  unfold diffuseBelowRight
  split_ifs with hc
  · exact addAt_smul_zero
  · rfl

theorem diffuseBelow_zero {hgt wid : ℕ} {y x : ℕ} {g : ℕ → ℕ → Vec3}
    {y' x' : ℕ} :
    diffuseBelow hgt wid (0 : Vec3) y x g y' x' = g y' x' := by
  unfold diffuseBelow
  split_ifs with hc
  · rw [diffuseBelowRight_zero, addAt_smul_zero, diffuseBelowLeft_zero]
  · rfl

/-- The aliased error is zero, so a Floyd-Steinberg step changes no cell other
than the one it quantizes: the program performs no effective error diffusion. -/
theorem fsStep_ne (pal : List Vec3) (hgt wid : ℕ) (g : ℕ → ℕ → Vec3)
    (y x y' x' : ℕ) (h : ¬(y' = y ∧ x' = x)) :
    fsStep pal hgt wid g y x y' x' = g y' x' := by
  unfold fsStep
  rw [sub_self, diffuseBelow_zero, diffuseRight_zero, upd2_ne h]

theorem fsStep_self (pal : List Vec3) (hgt wid : ℕ) (g : ℕ → ℕ → Vec3)
    (y x : ℕ) :
    fsStep pal hgt wid g y x y x = find_closest_color (g y x) pal := by
  unfold fsStep
  rw [sub_self, diffuseBelow_zero, diffuseRight_zero, upd2_self]

theorem fsStep_keep (pal : List Vec3) (hgt wid : ℕ) (g : ℕ → ℕ → Vec3)
    (y x y' x' : ℕ) (h : y' < y ∨ (y' = y ∧ x' < x)) :
    fsStep pal hgt wid g y x y' x' = g y' x' :=
  fsStep_ne pal hgt wid g y x y' x' (by omega)

theorem fsStep_oob (pal : List Vec3) (hgt wid : ℕ) (g : ℕ → ℕ → Vec3)
    (y x y' x' : ℕ) (hy : y < hgt) (hx : x < wid) (h : hgt ≤ y' ∨ wid ≤ x') :
    fsStep pal hgt wid g y x y' x' = g y' x' :=
  fsStep_ne pal hgt wid g y x y' x' (by omega)

/-!
Invariants of the raster folds, generic in the per-pixel step: a step that
only writes at raster positions not earlier than its own leaves
already-processed cells untouched, and a step that writes a quantized color at
its own cell makes every processed cell palette-exact.
-/

theorem rowFold_keep_lt_row
    (step : (ℕ → ℕ → Vec3) → ℕ → ℕ → ℕ → ℕ → Vec3)
    (hkeep : ∀ g y x y' x', y' < y ∨ (y' = y ∧ x' < x) → step g y x y' x' = g y' x')
    (g : ℕ → ℕ → Vec3) (y : ℕ) (y' x' : ℕ) (hy' : y' < y) :
    ∀ n, rowFold step g y n y' x' = g y' x' := by
  intro n
  induction n with
  | zero => rfl
  | succ n ih =>
    unfold rowFold at ih ⊢
    rw [List.range_succ, List.foldl_append, List.foldl_cons, List.foldl_nil,
      hkeep _ _ _ _ _ (Or.inl hy'), ih]

theorem rowFold_mem (pal : List Vec3)
    (step : (ℕ → ℕ → Vec3) → ℕ → ℕ → ℕ → ℕ → Vec3)
    (hkeep : ∀ g y x y' x', y' < y ∨ (y' = y ∧ x' < x) → step g y x y' x' = g y' x')
    (hself : ∀ g y x, ∃ v, step g y x y x = find_closest_color v pal)
    (hpal : pal ≠ []) (g : ℕ → ℕ → Vec3) (y : ℕ) :
    ∀ n x', x' < n → rowFold step g y n y x' ∈ pal := by
  intro n
  induction n with
  | zero => intro x' hx'; omega
  | succ n ih =>
    intro x' hx'
    unfold rowFold at ih ⊢
    rw [List.range_succ, List.foldl_append, List.foldl_cons, List.foldl_nil]
    rcases Nat.lt_succ_iff_lt_or_eq.mp hx' with hlt | rfl
    · rw [hkeep _ _ _ _ _ (Or.inr ⟨rfl, hlt⟩)]
      exact ih x' hlt
    · obtain ⟨v, hv⟩ := hself ((List.range x').foldl (fun g x => step g y x) g) y x'
      rw [hv]
      exact find_closest_color_mem v pal hpal

theorem passFold_mem (pal : List Vec3)
    (step : (ℕ → ℕ → Vec3) → ℕ → ℕ → ℕ → ℕ → Vec3)
    (hkeep : ∀ g y x y' x', y' < y ∨ (y' = y ∧ x' < x) → step g y x y' x' = g y' x')
    (hself : ∀ g y x, ∃ v, step g y x y x = find_closest_color v pal)
    (hpal : pal ≠ []) (cols : ℕ) (g : ℕ → ℕ → Vec3) :
    ∀ k y' x', y' < k → x' < cols → passFold step cols g k y' x' ∈ pal := by
  intro k
  induction k with
  | zero => intro y' x' hy' _; omega
  | succ k ih =>
    intro y' x' hy' hx'
    unfold passFold at ih ⊢
    rw [List.range_succ, List.foldl_append, List.foldl_cons, List.foldl_nil]
    rcases Nat.lt_succ_iff_lt_or_eq.mp hy' with hlt | rfl
    · rw [rowFold_keep_lt_row step hkeep _ _ _ _ hlt]
      exact ih y' x' hlt hx'
    · exact rowFold_mem pal step hkeep hself hpal _ y' cols x' hx'

theorem rowFold_oob (rows cols : ℕ)
    (step : (ℕ → ℕ → Vec3) → ℕ → ℕ → ℕ → ℕ → Vec3)
    (hoob : ∀ g y x y' x', y < rows → x < cols → rows ≤ y' ∨ cols ≤ x' →
      step g y x y' x' = g y' x')
    (g : ℕ → ℕ → Vec3) (y : ℕ) (hy : y < rows) (y' x' : ℕ)
    (h : rows ≤ y' ∨ cols ≤ x') :
    ∀ n, n ≤ cols → rowFold step g y n y' x' = g y' x' := by
  intro n
  induction n with
  | zero => intro _; rfl
  | succ n ih =>
    intro hn
    unfold rowFold at ih ⊢
    rw [List.range_succ, List.foldl_append, List.foldl_cons, List.foldl_nil,
      hoob _ _ _ _ _ hy (by omega) h, ih (by omega)]

theorem passFold_oob (rows cols : ℕ)
    (step : (ℕ → ℕ → Vec3) → ℕ → ℕ → ℕ → ℕ → Vec3)
    (hoob : ∀ g y x y' x', y < rows → x < cols → rows ≤ y' ∨ cols ≤ x' →
      step g y x y' x' = g y' x')
    (g : ℕ → ℕ → Vec3) (y' x' : ℕ) (h : rows ≤ y' ∨ cols ≤ x') :
    ∀ k, k ≤ rows → passFold step cols g k y' x' = g y' x' := by
  intro k
  induction k with
  | zero => intro _; rfl
  | succ k ih =>
    intro hk
    unfold passFold at ih ⊢
    rw [List.range_succ, List.foldl_append, List.foldl_cons, List.foldl_nil,
      rowFold_oob rows cols step hoob _ k (by omega) y' x' h cols (le_refl cols),
      ih (by omega)]

/-!
Instantiation of the fold invariants for the two ditherers, and the behavior
of the final clip on palette-exact integer colors.
-/

theorem bayerStep_keep (pal : List Vec3) :
    ∀ (g : ℕ → ℕ → Vec3) (y x y' x' : ℕ),
      y' < y ∨ (y' = y ∧ x' < x) →
      bayerStep pal g y x y' x' = g y' x' := by
  intro g y x y' x' h
  exact upd2_ne (by omega)

theorem bayerStep_self (pal : List Vec3) :
    ∀ (g : ℕ → ℕ → Vec3) (y x : ℕ),
      ∃ v, bayerStep pal g y x y x = find_closest_color v pal := by
  intro g y x
  exact ⟨_, upd2_self⟩

theorem fsStep_keep_all (pal : List Vec3) (hgt wid : ℕ) :
    ∀ (g : ℕ → ℕ → Vec3) (y x y' x' : ℕ),
      y' < y ∨ (y' = y ∧ x' < x) →
      fsStep pal hgt wid g y x y' x' = g y' x' := by
  intro g y x y' x' h
  exact fsStep_keep pal hgt wid g y x y' x' h

theorem fsStep_self_all (pal : List Vec3) (hgt wid : ℕ) :
    ∀ (g : ℕ → ℕ → Vec3) (y x : ℕ),
      ∃ v, fsStep pal hgt wid g y x y x = find_closest_color v pal := by
  intro g y x
  exact ⟨g y x, fsStep_self pal hgt wid g y x⟩

theorem clip8_int (z : ℤ) (h0 : 0 ≤ z) (h255 : z ≤ 255) :
    clip8 ((z : ℚ)) = (z : ℚ) := by
  unfold clip8 clamp255
  have hz0 : (0 : ℚ) ≤ (z : ℚ) := by exact_mod_cast h0
  have hz255 : (z : ℚ) ≤ 255 := by exact_mod_cast h255
  rw [max_eq_right hz0, min_eq_right hz255, Int.floor_intCast]

theorem clip8v_integral (c : Vec3) (h : IntegralColor c) : clip8v c = c := by
  obtain ⟨a, b, d, ha0, ha, hb0, hb, hd0, hd, rfl⟩ := h
  unfold clip8v
  rw [clip8_int a ha0 ha, clip8_int b hb0 hb, clip8_int d hd0 hd]

theorem fsPass_mem (pal : List Vec3) (hpal : pal ≠ []) (hgt wid : ℕ)
    (g : ℕ → ℕ → Vec3) (y x : ℕ) (hy : y < hgt) (hx : x < wid) :
    fsPass pal hgt wid g y x ∈ pal :=
  passFold_mem pal (fsStep pal hgt wid) (fsStep_keep_all pal hgt wid)
    (fsStep_self_all pal hgt wid) hpal wid g hgt y x hy hx

theorem bayerPass_mem (pal : List Vec3) (hpal : pal ≠ []) (hgt wid : ℕ)
    (g : ℕ → ℕ → Vec3) (y x : ℕ) (hy : y < hgt) (hx : x < wid) :
    bayerPass pal hgt wid g y x ∈ pal :=
  passFold_mem pal (fun g y x => bayerStep pal g y x) (bayerStep_keep pal)
    (bayerStep_self pal) hpal wid g hgt y x hy hx

/-- C1: for every input buffer and every non-empty palette of integer RGB
triples with channels in [0, 255], every in-bounds pixel of the buffers
returned by `floyd_steinberg_dither` and by `bayer_dither` is exactly one of
the palette entries. -/
theorem retro_c1_palette_closure (img : Buffer) (pal : List Vec3)
    (hpal : pal ≠ []) (hintegral : ∀ c ∈ pal, IntegralColor c) (y x : ℕ)
    (hy : y < img.height) (hx : x < img.width) :
    (floyd_steinberg_dither img pal).data y x ∈ pal
    ∧ (bayer_dither img pal).data y x ∈ pal := by
  constructor
  · show clip8v (fsPass pal img.height img.width img.data y x) ∈ pal
    have hmem := fsPass_mem pal hpal img.height img.width img.data y x hy hx
    rw [clip8v_integral _ (hintegral _ hmem)]
    exact hmem
  · show clip8v (bayerPass pal img.height img.width img.data y x) ∈ pal
    have hmem := bayerPass_mem pal hpal img.height img.width img.data y x hy hx
    rw [clip8v_integral _ (hintegral _ hmem)]
    exact hmem

/-- C1 witness: palette closure at pixel (0,0) of a 1x1 black buffer dithered
with the one-entry black palette. -/
theorem retro_c1_palette_closure_witness :
    (floyd_steinberg_dither ⟨1, 1, fun _ _ => (0, 0, 0)⟩ [(0, 0, 0)]).data 0 0
        ∈ ([(0, 0, 0)] : List Vec3)
    ∧ (bayer_dither ⟨1, 1, fun _ _ => (0, 0, 0)⟩ [(0, 0, 0)]).data 0 0
        ∈ ([(0, 0, 0)] : List Vec3) :=
  retro_c1_palette_closure ⟨1, 1, fun _ _ => (0, 0, 0)⟩ [(0, 0, 0)] (by simp)
    (by
      intro c hc
      simp only [List.mem_singleton] at hc
      subst hc
      exact ⟨0, 0, 0, by norm_num⟩)
    0 0 (by decide) (by decide)

/-- C3 (code-bug evidence): the error-diffusion weights are never applied.
The claim — faithful to the spec and to the intent visible in the source's
comments and weight constants — requires the accumulator of (x+1, y) to gain
7/16 of `old accumulator - chosen color`.  In the program,
`old_pixel = img_array[y, x]` is a view overwritten by the write of
`new_pixel` before `error` is computed, so `error` is always (0,0,0) and the
`+=` statements change nothing.  Concretely, for the 2x2 buffer whose pixel
(x,y)=(0,0) is (255,255,255) (other pixels (0,0,0)) and the palette
[(0,0,0)]: the claimed contribution 7/16 of the error (255,255,255) is
nonzero, yet after the step at (0,0) the accumulator of its right neighbor
still holds (0,0,0); and on the all-mid-gray 2x2 buffer with the black/white
palette the finished dither leaves pixel (1,0) white where diffusion of the
error from (0,0) would have driven it to black. -/
theorem retro_c3_no_error_diffused :
    ((7 : ℚ)/16) • (((255 : ℚ), 255, 255)
        - find_closest_color (255, 255, 255) [(0, 0, 0)]) ≠ ((0 : ℚ), 0, 0)
    ∧ fsStep [(0, 0, 0)] 2 2
        (fun y x => if y = 0 ∧ x = 0 then ((255 : ℚ), 255, 255) else (0, 0, 0))
        0 0 0 1
      = ((0 : ℚ), 0, 0)
    ∧ (floyd_steinberg_dither
        ⟨2, 2, fun y x => if y = 0 ∧ x = 0 then ((255 : ℚ), 255, 255) else (0, 0, 0)⟩
        [(0, 0, 0)]).data 0 1 = ((0 : ℚ), 0, 0)
    ∧ (floyd_steinberg_dither midGrayBuf bwPal).data 1 0 = ((255 : ℚ), 255, 255) := by
  refine ⟨?_, ?_, ?_, ?_⟩ <;> with_unfolding_all decide

/-- C6: `ordered_dither` is a pure pass-through to `bayer_dither`, ignoring
its matrix-size parameter. -/
theorem retro_c6_ordered_is_bayer (img : Buffer) (pal : List Vec3)
    (matrix_size : ℕ) :
    ordered_dither img pal matrix_size = bayer_dither img pal := rfl

/-- C8: both ditherers return a buffer with the same width and height as the
input buffer. -/
theorem retro_c8_dimension_preservation (img : Buffer) (pal : List Vec3) :
    (floyd_steinberg_dither img pal).width = img.width
    ∧ (floyd_steinberg_dither img pal).height = img.height
    ∧ (bayer_dither img pal).width = img.width
    ∧ (bayer_dither img pal).height = img.height :=
  ⟨rfl, rfl, rfl, rfl⟩

/-- C4 counterexample: on the 2x2 all-(128,128,128) buffer with palette
[(0,0,0), (255,255,255)], pixel (0,0) does NOT quantize to black — the claimed
distance tie does not exist, because 3·127² < 3·128² makes white strictly
closer to mid-gray 128. -/
theorem retro_c4_counterexample :
    (floyd_steinberg_dither midGrayBuf bwPal).data 0 0 ≠ ((0 : ℚ), 0, 0) := by
  with_unfolding_all decide

/-- C4 amended: the output is uniform white, not a checkerboard.  Pixel (0,0)
quantizes to (255,255,255) — white is strictly closer to (128,128,128)
(squared distance 48387 < 49152), so the claimed tie does not exist — and,
because the diffusion error is computed through the overwritten numpy view
and is therefore (0,0,0), nothing propagates: all four mid-gray pixels
quantize independently to white. -/
theorem retro_c4_all_white :
    (floyd_steinberg_dither midGrayBuf bwPal).data 0 0 = ((255 : ℚ), 255, 255)
    ∧ (floyd_steinberg_dither midGrayBuf bwPal).data 0 1 = ((255 : ℚ), 255, 255)
    ∧ (floyd_steinberg_dither midGrayBuf bwPal).data 1 0 = ((255 : ℚ), 255, 255)
    ∧ (floyd_steinberg_dither midGrayBuf bwPal).data 1 1 = ((255 : ℚ), 255, 255)
    ∧ find_closest_color (128, 128, 128) bwPal = ((255 : ℚ), 255, 255)
    ∧ dist2 (128, 128, 128) (255, 255, 255) < dist2 (128, 128, 128) (0, 0, 0) := by
  refine ⟨?_, ?_, ?_, ?_, ?_, ?_⟩ <;> with_unfolding_all decide

/-- C5 counterexample: on the uniform white 4x4 buffer with the Game Boy
palette, Bayer dithering does NOT produce the lightest entry (155,188,15) at
every pixel: at (0,0) the threshold 0 perturbs white down to (127.5,127.5,
127.5), whose nearest palette entry is (48,98,48). -/
theorem retro_c5_counterexample :
    (bayer_dither whiteBuf GAMEBOY_PALETTE).data 0 0 = ((48 : ℚ), 98, 48)
    ∧ (bayer_dither whiteBuf GAMEBOY_PALETTE).data 0 0 ≠ ((155 : ℚ), 188, 15) := by
  constructor <;> with_unfolding_all decide

/-- C5 amended: on the uniform white 4x4 buffer, Bayer dithering with the
Game Boy palette yields the lightest entry (155,188,15) at 13 of the 16
pixels, but (48,98,48) at (x,y)=(0,0) (threshold entry 0) and (139,172,15)
at (x,y)=(2,0) and (2,2) (threshold entries 2 and 1). -/
theorem retro_c5_bayer_white :
    (bayer_dither whiteBuf GAMEBOY_PALETTE).data 0 0 = ((48 : ℚ), 98, 48)
    ∧ (bayer_dither whiteBuf GAMEBOY_PALETTE).data 0 1 = ((155 : ℚ), 188, 15)
    ∧ (bayer_dither whiteBuf GAMEBOY_PALETTE).data 0 2 = ((139 : ℚ), 172, 15)
    ∧ (bayer_dither whiteBuf GAMEBOY_PALETTE).data 0 3 = ((155 : ℚ), 188, 15)
    ∧ (bayer_dither whiteBuf GAMEBOY_PALETTE).data 1 0 = ((155 : ℚ), 188, 15)
    ∧ (bayer_dither whiteBuf GAMEBOY_PALETTE).data 1 1 = ((155 : ℚ), 188, 15)
    ∧ (bayer_dither whiteBuf GAMEBOY_PALETTE).data 1 2 = ((155 : ℚ), 188, 15)
    ∧ (bayer_dither whiteBuf GAMEBOY_PALETTE).data 1 3 = ((155 : ℚ), 188, 15)
    ∧ (bayer_dither whiteBuf GAMEBOY_PALETTE).data 2 0 = ((155 : ℚ), 188, 15)
    ∧ (bayer_dither whiteBuf GAMEBOY_PALETTE).data 2 1 = ((155 : ℚ), 188, 15)
    ∧ (bayer_dither whiteBuf GAMEBOY_PALETTE).data 2 2 = ((139 : ℚ), 172, 15)
    ∧ (bayer_dither whiteBuf GAMEBOY_PALETTE).data 2 3 = ((155 : ℚ), 188, 15)
    ∧ (bayer_dither whiteBuf GAMEBOY_PALETTE).data 3 0 = ((155 : ℚ), 188, 15)
    ∧ (bayer_dither whiteBuf GAMEBOY_PALETTE).data 3 1 = ((155 : ℚ), 188, 15)
    ∧ (bayer_dither whiteBuf GAMEBOY_PALETTE).data 3 2 = ((155 : ℚ), 188, 15)
    ∧ (bayer_dither whiteBuf GAMEBOY_PALETTE).data 3 3 = ((155 : ℚ), 188, 15) := by
  refine ⟨?_, ?_, ?_, ?_, ?_, ?_, ?_, ?_, ?_, ?_, ?_, ?_, ?_, ?_, ?_, ?_⟩ <;>
    with_unfolding_all decide

/-- C7 counterexample: for a 2-wide, 3-high input and target width 1 with the
height omitted and aspect maintained, the code computes height
`int(1 * 3/2) = 1`, while round-to-nearest of 3/2 is 2.  The float64
computation is exact at this input (3/2 and 1.5 are dyadic), so the rational
model coincides with the program here. -/
theorem retro_c7_counterexample :
    (resize_target_dims 2 3 1 none true).2 = 1
    ∧ round ((1 : ℚ) * ((3 : ℚ) / (2 : ℚ))) = 2
    ∧ (1 : ℤ) ≠ 2 := by
  refine ⟨?_, ?_, ?_⟩
  · with_unfolding_all decide
  · with_unfolding_all decide
  · decide

/-- C7 amended: with the height omitted and aspect maintained, the height is
Python's `int()` truncation of the float64 product — not round-to-nearest.
On inputs where that float computation is exact (original width a power of
two `2^k` with `k ≤ 1022`, and `targetWidth * origHeight < 2^53`; the
justification is at `resize_target_dims`) it equals the truncation
`⌊targetWidth * origHeight / origWidth⌋` of the exact ratio; and with aspect
not maintained the height equals the target width for every original width,
with no floating point involved. -/
theorem retro_c7_resize_dims (k h tw : ℕ) (hk : k ≤ 1022)
    (hfit : tw * h < 2 ^ 53) :
    (resize_target_dims (2 ^ k) h tw none true).2
        = ⌊((tw * h : ℕ) : ℚ) / ((2 ^ k : ℕ) : ℚ)⌋
    ∧ ∀ w : ℕ, (resize_target_dims w h tw none false).2 = (tw : ℤ) := by
  constructor
  · show ⌊(tw : ℚ) * ((h : ℚ) / ((2 ^ k : ℕ) : ℚ))⌋
        = ⌊((tw * h : ℕ) : ℚ) / ((2 ^ k : ℕ) : ℚ)⌋
    congr 1
    push_cast
    ring
  · intro w
    rfl

/-- C7 witness: the amended statement at the counterexample input
(2-wide, 3-high, target width 1), which lies in the float-exact family
(2 = 2^1 and 1 * 3 < 2^53). -/
theorem retro_c7_resize_dims_witness :
    (1 : ℕ) ≤ 1022 ∧ 1 * 3 < 2 ^ 53
    ∧ ((resize_target_dims (2 ^ 1) 3 1 none true).2
          = ⌊((1 * 3 : ℕ) : ℚ) / ((2 ^ 1 : ℕ) : ℚ)⌋
      ∧ ∀ w : ℕ, (resize_target_dims w 3 1 none false).2 = (1 : ℤ)) :=
  ⟨by decide, by norm_num,
   retro_c7_resize_dims 1 3 1 (by decide) (by norm_num)⟩

/-- C9: `convert_to_retro_color` raises no error on a palette name whose
lowercase form is not registered — the `dict.get` default silently substitutes
the CGA palette, so the call behaves identically to the same call with
palette name "cga"; this holds for any external resize and contrast
collaborators. -/
theorem retro_c9_unknown_palette_fallback
    (rf : Buffer → ℕ → Option ℕ → Bool → Buffer) (cf : Buffer → ℚ → Buffer)
    (img : Buffer) (w : ℕ) (name dm : String) (c : ℚ)
    (h : pyLower name ∉ (["cga", "apple2", "c64", "spectrum"] : List String)) :
    convert_to_retro_color rf cf img w name dm c
      = convert_to_retro_color rf cf img w "cga" dm c := by
  have h1 : pyLower name ≠ "cga" := fun e => h (by rw [e]; simp)
  have h2 : pyLower name ≠ "apple2" := fun e => h (by rw [e]; simp)
  have h3 : pyLower name ≠ "c64" := fun e => h (by rw [e]; simp)
  have h4 : pyLower name ≠ "spectrum" := fun e => h (by rw [e]; simp)
  have hl : lookup_palette name = CGA_PALETTE := by
    unfold lookup_palette
    rw [if_neg h1, if_neg h2, if_neg h3, if_neg h4]
  have hcga : lookup_palette "cga" = CGA_PALETTE := by
    unfold lookup_palette
    rw [if_pos (by decide)]
  unfold convert_to_retro_color
  rw [hl, hcga]

/-- C9 witness: the unregistered palette name "vga" behaves exactly like
"cga" for a concrete call. -/
theorem retro_c9_unknown_palette_fallback_witness :
    pyLower "vga" ∉ (["cga", "apple2", "c64", "spectrum"] : List String)
    ∧ convert_to_retro_color (fun b _ _ _ => b) (fun b _ => b)
        ⟨1, 1, fun _ _ => (0, 0, 0)⟩ 320 "vga" "floyd_steinberg" 1
      = convert_to_retro_color (fun b _ _ _ => b) (fun b _ => b)
          ⟨1, 1, fun _ _ => (0, 0, 0)⟩ 320 "cga" "floyd_steinberg" 1 :=
  ⟨by decide,
   retro_c9_unknown_palette_fallback (fun b _ _ _ => b) (fun b _ => b)
     ⟨1, 1, fun _ _ => (0, 0, 0)⟩ 320 "vga" "floyd_steinberg" 1 (by decide)⟩

/-- C10: for any dither-method string other than "floyd_steinberg" and
"bayer" — "ordered" or any unrecognized value alike — each of the three
presets silently dispatches to `ordered_dither` (hence to Bayer dithering)
on its contrast-enhanced resized input, instead of raising an error. -/
theorem retro_c10_method_fallback
    (rf : Buffer → ℕ → Option ℕ → Bool → Buffer) (cf : Buffer → ℚ → Buffer)
    (img : Buffer) (w : ℕ) (pname dm : String) (c : ℚ)
    (h1 : dm ≠ "floyd_steinberg") (h2 : dm ≠ "bayer") :
    convert_to_gameboy_camera rf cf img dm c
        = ordered_dither (cf (rf img 128 (some 112) false) c) GAMEBOY_PALETTE 4
    ∧ convert_to_dot_matrix rf cf img w dm c
        = ordered_dither (cf (rf img w none true) c) DOT_MATRIX_PALETTE 4
    ∧ convert_to_retro_color rf cf img w pname dm c
        = ordered_dither (cf (rf img w none true) c) (lookup_palette pname) 4 := by
  refine ⟨?_, ?_, ?_⟩
  · unfold convert_to_gameboy_camera
    rw [if_neg h1, if_neg h2]
  · unfold convert_to_dot_matrix
    rw [if_neg h1, if_neg h2]
  · unfold convert_to_retro_color
    rw [if_neg h1, if_neg h2]

/-- C10 witness: the unrecognized dither method "dithery" dispatches all
three presets to `ordered_dither` for a concrete call. -/
theorem retro_c10_method_fallback_witness :
    ("dithery" ≠ "floyd_steinberg" ∧ "dithery" ≠ "bayer")
    ∧ (convert_to_gameboy_camera (fun b _ _ _ => b) (fun b _ => b)
          ⟨1, 1, fun _ _ => (0, 0, 0)⟩ "dithery" 1
        = ordered_dither
            ((fun (b : Buffer) (_ : ℚ) => b)
              ((fun (b : Buffer) (_ : ℕ) (_ : Option ℕ) (_ : Bool) => b)
                ⟨1, 1, fun _ _ => (0, 0, 0)⟩ 128 (some 112) false) 1)
            GAMEBOY_PALETTE 4
      ∧ convert_to_dot_matrix (fun b _ _ _ => b) (fun b _ => b)
          ⟨1, 1, fun _ _ => (0, 0, 0)⟩ 200 "dithery" 1
        = ordered_dither
            ((fun (b : Buffer) (_ : ℚ) => b)
              ((fun (b : Buffer) (_ : ℕ) (_ : Option ℕ) (_ : Bool) => b)
                ⟨1, 1, fun _ _ => (0, 0, 0)⟩ 200 none true) 1)
            DOT_MATRIX_PALETTE 4
      ∧ convert_to_retro_color (fun b _ _ _ => b) (fun b _ => b)
          ⟨1, 1, fun _ _ => (0, 0, 0)⟩ 200 "cga" "dithery" 1
        = ordered_dither
            ((fun (b : Buffer) (_ : ℚ) => b)
              ((fun (b : Buffer) (_ : ℕ) (_ : Option ℕ) (_ : Bool) => b)
                ⟨1, 1, fun _ _ => (0, 0, 0)⟩ 200 none true) 1)
            (lookup_palette "cga") 4) :=
  ⟨⟨by decide, by decide⟩,
   retro_c10_method_fallback (fun b _ _ _ => b) (fun b _ => b)
     ⟨1, 1, fun _ _ => (0, 0, 0)⟩ 200 "cga" "dithery" 1
     (by decide) (by decide)⟩
